import Mathlib

/-!
Verification of the civil-alignment geometry engine.

Shallow embedding of the GeometryUtils module (geometry.js) and the
AlignmentCalculations module (alignment-calculations.js), with JS numbers
idealized as exact real numbers and Math.atan2 as the complex argument.
-/

noncomputable section

open Real

/-- A planar point or vector with real coordinates, as the JS objects with x and y fields. -/
@[ext]
structure Point where
  x : ℝ
  y : ℝ

/-- Junk point for out-of-range list reads; every real read in the engine is bounds-guarded. -/
def origin : Point := ⟨0, 0⟩

/-- Two-argument arctangent, the exact-real semantics of JS Math.atan2:
atan2 y x is the argument of the complex number x + y*i, in the range (-pi, pi],
with atan2 0 0 = 0. -/
def atan2 (y x : ℝ) : ℝ := Complex.arg ⟨x, y⟩

/-- GeometryUtils.calculateBearing: atan2 of (eastward, northward) displacement with the
canvas y axis flipped, then normalized into the range [0, 2*pi). -/
def calculateBearing (p1 p2 : Point) : ℝ :=
  let dx := p2.x - p1.x
  let dy := p1.y - p2.y
  let bearing := atan2 dx dy
  if bearing < 0 then bearing + 2 * π else bearing

/-- GeometryUtils.calculateDistance: Euclidean distance. -/
def calculateDistance (p1 p2 : Point) : ℝ :=
  let dx := p2.x - p1.x
  let dy := p2.y - p1.y
  Real.sqrt (dx * dx + dy * dy)

/-- GeometryUtils.getUnitVector: unit vector from p1 to p2, and the zero vector when the
distance is zero (the JS length check that avoids division by zero). -/
def getUnitVector (p1 p2 : Point) : Point :=
  let dx := p2.x - p1.x
  let dy := p2.y - p1.y
  let length := Real.sqrt (dx * dx + dy * dy)
  if length = 0 then ⟨0, 0⟩ else ⟨dx / length, dy / length⟩

/-- GeometryUtils.getPerpendicularVector: rotation by 90 degrees, (x, y) to (-y, x). -/
def getPerpendicularVector (v : Point) : Point := ⟨-v.y, v.x⟩

/-- GeometryUtils.isPointNear. -/
def isPointNear (p1 p2 : Point) (tolerance : ℝ) : Bool :=
  decide (calculateDistance p1 p2 ≤ tolerance)

/-- GeometryUtils.isPointOnLine: the degenerate-ellipse segment test. -/
def isPointOnLine (point lineStart lineEnd : Point) (tolerance : ℝ) : Bool :=
  decide (|calculateDistance point lineStart + calculateDistance point lineEnd -
    calculateDistance lineStart lineEnd| < tolerance)

/-- GeometryUtils.isPointOnArc: radius-only circle test (ignores the angular sweep). -/
def isPointOnArc (point arcCenter : Point) (radius tolerance : ℝ) : Bool :=
  decide (|calculateDistance point arcCenter - radius| ≤ tolerance)

/-- GeometryUtils.calculateLineIntersection: parametric two-line intersection, none when
the denominator is smaller than 1e-10 in absolute value. -/
def calculateLineIntersection (l1s l1d l2s l2d : Point) : Option Point :=
  let denominator := l1d.x * l2d.y - l1d.y * l2d.x
  if |denominator| < 1e-10 then none
  else
    let dx := l2s.x - l1s.x
    let dy := l2s.y - l1s.y
    let t1 := (dx * l2d.y - dy * l2d.x) / denominator
    some ⟨l1s.x + t1 * l1d.x, l1s.y + t1 * l1d.y⟩

/-- GeometryUtils.calculateAngleBetweenVectors: signed angle atan2(cross, dot). -/
def calculateAngleBetweenVectors (v1 v2 : Point) : ℝ :=
  atan2 (v1.x * v2.y - v1.y * v2.x) (v1.x * v2.x + v1.y * v2.y)

/-- A tangent element, as returned by AlignmentCalculations.calculateAlignmentElements. -/
structure Tangent where
  startPoint : Point
  endPoint : Point
  bearing : ℝ
  length : ℝ
  originalStart : Point
  originalEnd : Point

/-- An arc element, as returned by AlignmentCalculations.calculateArcElement. -/
structure Arc where
  centerPoint : Point
  radius : ℝ
  startAngle : ℝ
  endAngle : ℝ
  deflectionAngle : ℝ
  isRightTurn : Bool
  startPoint : Point
  endPoint : Point
  ipPoint : Point
  tangentLength : ℝ
  inputRadius : ℝ

/-- The tagged element variant (the JS type field). -/
inductive Element where
  | tangent (t : Tangent)
  | arc (a : Arc)

/-- AlignmentCalculations.normalizeArcAngles. -/
def normalizeArcAngles (startAngle endAngle : ℝ) (isRightTurn : Bool) : ℝ × ℝ :=
  if isRightTurn then
    if endAngle < startAngle then (startAngle, endAngle + 2 * π) else (startAngle, endAngle)
  else
    if endAngle > startAngle then (startAngle, endAngle - 2 * π) else (startAngle, endAngle)

/-- AlignmentCalculations.calculateArcCenter. -/
def calculateArcCenter (arcStart arcEnd incomingVector outgoingVector : Point) (radius : ℝ)
    (isRightTurn : Bool) : Point :=
  let incomingPerp := getPerpendicularVector incomingVector
  let outgoingPerp := getPerpendicularVector outgoingVector
  let adjustedIncomingPerp : Point :=
    if isRightTurn then ⟨incomingPerp.x, incomingPerp.y⟩ else ⟨-incomingPerp.x, -incomingPerp.y⟩
  let adjustedOutgoingPerp : Point :=
    if isRightTurn then ⟨-outgoingPerp.x, -outgoingPerp.y⟩ else ⟨outgoingPerp.x, outgoingPerp.y⟩
  match calculateLineIntersection arcStart adjustedIncomingPerp arcEnd adjustedOutgoingPerp with
  | none =>
    ⟨arcStart.x + radius * adjustedIncomingPerp.x, arcStart.y + radius * adjustedIncomingPerp.y⟩
  | some center => center

/-- AlignmentCalculations.calculateArcElement: the circular transition arc at one interior
IP, or none when the absolute deflection is below the 0.05 rad threshold. -/
def calculateArcElement (prevPoint currentPoint nextPoint : Point) (radius : ℝ) : Option Arc :=
  let incomingVector := getUnitVector prevPoint currentPoint
  let outgoingVector := getUnitVector currentPoint nextPoint
  let deflectionAngle := calculateAngleBetweenVectors incomingVector outgoingVector
  if |deflectionAngle| < 0.05 then none
  else
    let isRightTurn : Bool := decide (deflectionAngle > 0)
    let halfDeflection := |deflectionAngle| / 2
    let tangentLength := radius * Real.tan halfDeflection
    let arcStart : Point := ⟨currentPoint.x - tangentLength * incomingVector.x,
      currentPoint.y - tangentLength * incomingVector.y⟩
    let arcEnd : Point := ⟨currentPoint.x + tangentLength * outgoingVector.x,
      currentPoint.y + tangentLength * outgoingVector.y⟩
    let center := calculateArcCenter arcStart arcEnd incomingVector outgoingVector radius isRightTurn
    let startAngle := atan2 (arcEnd.y - center.y) (arcEnd.x - center.x)
    let endAngle := atan2 (arcStart.y - center.y) (arcStart.x - center.x)
    let normalized := normalizeArcAngles startAngle endAngle isRightTurn
    some ⟨center, radius, normalized.1, normalized.2, deflectionAngle, isRightTurn,
      arcStart, arcEnd, currentPoint, tangentLength, radius⟩

/-- The arc stored at slot i of the sparse arcs array in calculateAlignmentElements:
present only for interior indices 1 <= i <= n-2 and when calculateArcElement returns one. -/
def ipArc (points : List Point) (defaultRadius : ℝ) (i : ℕ) : Option Arc :=
  if 1 ≤ i ∧ i + 1 < points.length then
    calculateArcElement (points.getD (i - 1) origin) (points.getD i origin)
      (points.getD (i + 1) origin) defaultRadius
  else none

/-- The tangent element built for segment i of calculateAlignmentElements, with endpoints
pulled back to the adjacent arcs when those exist. -/
def tangentAt (points : List Point) (defaultRadius : ℝ) (i : ℕ) : Tangent :=
  let startPoint := match ipArc points defaultRadius i with
    | some arc => arc.endPoint
    | none => points.getD i origin
  let endPoint := match ipArc points defaultRadius (i + 1) with
    | some arc => arc.startPoint
    | none => points.getD (i + 1) origin
  ⟨startPoint, endPoint, calculateBearing startPoint endPoint,
    calculateDistance startPoint endPoint, points.getD i origin, points.getD (i + 1) origin⟩

/-- AlignmentCalculations.calculateAlignmentElements: empty for fewer than two points,
otherwise all tangents in IP order followed by all arcs in IP order. The curvePoints
parameter is accepted and never read, exactly as in the source. -/
def calculateAlignmentElements (points : List Point) (curvePoints : List Point)
    (defaultRadius : ℝ) : List Element :=
  if points.length < 2 then []
  else
    ((List.range (points.length - 1)).map fun i =>
      Element.tangent (tangentAt points defaultRadius i)) ++
    ((List.range' 1 (points.length - 2)).filterMap fun i =>
      (ipArc points defaultRadius i).map Element.arc)

/-- A tangent element of the offset alignment (offset and parentElement fields added). -/
structure OffsetTangent where
  startPoint : Point
  endPoint : Point
  bearing : ℝ
  length : ℝ
  offset : ℝ
  parentElement : Tangent

/-- An arc element of the offset alignment (offset and parentElement fields added). -/
structure OffsetArc where
  centerPoint : Point
  radius : ℝ
  startAngle : ℝ
  endAngle : ℝ
  deflectionAngle : ℝ
  isRightTurn : Bool
  startPoint : Point
  endPoint : Point
  ipPoint : Point
  tangentLength : ℝ
  offset : ℝ
  parentElement : Arc

/-- Tagged variant for offset elements. -/
inductive OffsetElement where
  | tangent (t : OffsetTangent)
  | arc (a : OffsetArc)

/-- AlignmentCalculations.calculateOffsetTangent: both endpoints translated by the offset
distance along the perpendicular of the tangent direction. -/
def calculateOffsetTangent (tangent : Tangent) (offsetDistance : ℝ) : OffsetTangent :=
  let direction := getUnitVector tangent.startPoint tangent.endPoint
  let perpendicular := getPerpendicularVector direction
  let offsetStart : Point := ⟨tangent.startPoint.x + offsetDistance * perpendicular.x,
    tangent.startPoint.y + offsetDistance * perpendicular.y⟩
  let offsetEnd : Point := ⟨tangent.endPoint.x + offsetDistance * perpendicular.x,
    tangent.endPoint.y + offsetDistance * perpendicular.y⟩
  ⟨offsetStart, offsetEnd, tangent.bearing, tangent.length, offsetDistance, tangent⟩

/-- AlignmentCalculations.calculateOffsetArc: radius grows on a right turn and shrinks on
a left turn; the arc is dropped (none) when the offset radius is not positive. -/
def calculateOffsetArc (arc : Arc) (offsetDistance : ℝ) : Option OffsetArc :=
  let offsetRadius := if arc.isRightTurn then arc.radius + offsetDistance
    else arc.radius - offsetDistance
  if offsetRadius ≤ 0 then none
  else
    let startPerpendicular : Point := ⟨-Real.sin arc.startAngle, Real.cos arc.startAngle⟩
    let endPerpendicular : Point := ⟨-Real.sin arc.endAngle, Real.cos arc.endAngle⟩
    let offsetStart : Point := ⟨arc.startPoint.x + offsetDistance * startPerpendicular.x,
      arc.startPoint.y + offsetDistance * startPerpendicular.y⟩
    let offsetEnd : Point := ⟨arc.endPoint.x + offsetDistance * endPerpendicular.x,
      arc.endPoint.y + offsetDistance * endPerpendicular.y⟩
    some ⟨arc.centerPoint, offsetRadius, arc.startAngle, arc.endAngle, arc.deflectionAngle,
      arc.isRightTurn, offsetStart, offsetEnd, arc.ipPoint, arc.tangentLength,
      offsetDistance, arc⟩

/-- AlignmentCalculations.calculateOffsetAlignment: elementwise offset, dropping arcs whose
offset radius degenerates. -/
def calculateOffsetAlignment (elements : List Element) (offsetDistance : ℝ) :
    List OffsetElement :=
  elements.filterMap fun element =>
    match element with
    | Element.tangent t => some (OffsetElement.tangent (calculateOffsetTangent t offsetDistance))
    | Element.arc a => (calculateOffsetArc a offsetDistance).map OffsetElement.arc

/-- AlignmentCalculations.isElementAtPosition: the proximity predicate used by selection. -/
def isElementAtPosition (mousePos : Point) (element : Element) (tolerance : ℝ) : Bool :=
  match element with
  | Element.tangent t => isPointOnLine mousePos t.startPoint t.endPoint tolerance
  | Element.arc a => isPointOnArc mousePos a.centerPoint a.radius tolerance

/-- The selection query (getElementAt in the front end): first element of the sequence,
in stored order, whose proximity predicate holds. -/
def findElementAt (mousePos : Point) (elements : List Element) (tolerance : ℝ) :
    Option Element :=
  elements.find? fun element => isElementAtPosition mousePos element tolerance

/-- The tangent elements of a sequence, in order. -/
def tangentsOf (elements : List Element) : List Tangent :=
  elements.filterMap fun e => match e with
    | Element.tangent t => some t
    | Element.arc _ => none

/-- The arc elements of a sequence, in order. -/
def arcsOf (elements : List Element) : List Arc :=
  elements.filterMap fun e => match e with
    | Element.tangent _ => none
    | Element.arc a => some a

/-- The signed deflection angle the engine computes at interior IP index i. -/
def deflectionAt (points : List Point) (i : ℕ) : ℝ :=
  calculateAngleBetweenVectors
    (getUnitVector (points.getD (i - 1) origin) (points.getD i origin))
    (getUnitVector (points.getD i origin) (points.getD (i + 1) origin))

/-- Modelled from the spec: a RadiusSpec maps interior-IP indices to radii with a default
fallback for any index not present. The source engine has no such parameter; this is the
comparison definition for the per-index radius lookup the spec describes. -/
structure RadiusSpec where
  default : ℝ
  overrides : List (ℕ × ℝ)

/-- Modelled from the spec: radius(i) is looked up in the RadiusSpec at index i, falling
back to the default when index i is absent. -/
def radiusAt (radii : RadiusSpec) (i : ℕ) : ℝ :=
  match radii.overrides.lookup i with
  | some r => r
  | none => radii.default

/-- Modelled from the spec: the arc at interior IP i when the radius is taken from the
RadiusSpec at index i rather than from a single scalar argument. -/
def ipArcSpec (points : List Point) (radii : RadiusSpec) (i : ℕ) : Option Arc :=
  if 1 ≤ i ∧ i + 1 < points.length then
    calculateArcElement (points.getD (i - 1) origin) (points.getD i origin)
      (points.getD (i + 1) origin) (radiusAt radii i)
  else none

/-- Modelled from the spec: tangent for segment i when arcs use per-index radii. -/
def tangentAtSpec (points : List Point) (radii : RadiusSpec) (i : ℕ) : Tangent :=
  let startPoint := match ipArcSpec points radii i with
    | some arc => arc.endPoint
    | none => points.getD i origin
  let endPoint := match ipArcSpec points radii (i + 1) with
    | some arc => arc.startPoint
    | none => points.getD (i + 1) origin
  ⟨startPoint, endPoint, calculateBearing startPoint endPoint,
    calculateDistance startPoint endPoint, points.getD i origin, points.getD (i + 1) origin⟩

/-- Modelled from the spec: computeElements with a RadiusSpec, i.e. the engine as the spec
describes it, with the per-index radius lookup in effect. -/
def calculateAlignmentElementsSpec (points : List Point) (radii : RadiusSpec) : List Element :=
  if points.length < 2 then []
  else
    ((List.range (points.length - 1)).map fun i =>
      Element.tangent (tangentAtSpec points radii i)) ++
    ((List.range' 1 (points.length - 2)).filterMap fun i =>
      (ipArcSpec points radii i).map Element.arc)

/-! ### Values and range of atan2 -/

lemma atan2_le_pi (y x : ℝ) : atan2 y x ≤ π := Complex.arg_le_pi _

lemma neg_pi_lt_atan2 (y x : ℝ) : -π < atan2 y x := Complex.neg_pi_lt_arg _

lemma atan2_zero_nonneg (x : ℝ) (hx : 0 ≤ x) : atan2 0 x = 0 := by
  have h : (⟨x, 0⟩ : ℂ) = (x : ℂ) := by apply Complex.ext <;> simp
  rw [atan2, h, Complex.arg_ofReal_of_nonneg hx]

lemma atan2_zero_neg (x : ℝ) (hx : x < 0) : atan2 0 x = π := by
  have h : (⟨x, 0⟩ : ℂ) = (x : ℂ) := by apply Complex.ext <;> simp
  rw [atan2, h, Complex.arg_ofReal_of_neg hx]

lemma atan2_pos_zero (y : ℝ) (hy : 0 < y) : atan2 y 0 = π / 2 := by
  have h : (⟨0, y⟩ : ℂ) = (y : ℂ) * Complex.I := by apply Complex.ext <;> simp
  rw [atan2, h, Complex.arg_real_mul _ hy, Complex.arg_I]

lemma atan2_neg_zero (y : ℝ) (hy : y < 0) : atan2 y 0 = -(π / 2) := by
  have h : (⟨0, y⟩ : ℂ) = ((-y : ℝ) : ℂ) * (-Complex.I) := by
    apply Complex.ext <;> simp
  rw [atan2, h, Complex.arg_real_mul _ (by linarith), Complex.arg_neg_I]

/-! ### Evaluation helpers for square roots -/

lemma calculateDistance_eval (p q : Point) (L : ℝ) (hL : 0 ≤ L)
    (h : (q.x - p.x) * (q.x - p.x) + (q.y - p.y) * (q.y - p.y) = L ^ 2) :
    calculateDistance p q = L := by
  simp only [calculateDistance]
  rw [h, Real.sqrt_sq hL]

lemma getUnitVector_eval (p q : Point) (L : ℝ) (hL : 0 < L)
    (h : (q.x - p.x) * (q.x - p.x) + (q.y - p.y) * (q.y - p.y) = L ^ 2) :
    getUnitVector p q = ⟨(q.x - p.x) / L, (q.y - p.y) / L⟩ := by
  simp only [getUnitVector]
  rw [h, Real.sqrt_sq hL.le, if_neg hL.ne']

/-! ### Concrete unit vectors and deflections used by the test-point claims -/

lemma uv_east : getUnitVector ⟨0, 0⟩ ⟨100, 0⟩ = ⟨1, 0⟩ := by
  rw [getUnitVector_eval ⟨0, 0⟩ ⟨100, 0⟩ 100 (by norm_num) (by norm_num)]
  ext <;> norm_num

lemma uv_north : getUnitVector ⟨100, 0⟩ ⟨100, 100⟩ = ⟨0, 1⟩ := by
  rw [getUnitVector_eval ⟨100, 0⟩ ⟨100, 100⟩ 100 (by norm_num) (by norm_num)]
  ext <;> norm_num

lemma uv_west : getUnitVector ⟨100, 100⟩ ⟨0, 100⟩ = ⟨-1, 0⟩ := by
  rw [getUnitVector_eval ⟨100, 100⟩ ⟨0, 100⟩ 100 (by norm_num) (by norm_num)]
  ext <;> norm_num

lemma uv_east2 : getUnitVector ⟨100, 0⟩ ⟨200, 0⟩ = ⟨1, 0⟩ := by
  rw [getUnitVector_eval ⟨100, 0⟩ ⟨200, 0⟩ 100 (by norm_num) (by norm_num)]
  ext <;> norm_num

lemma uv_degenerate : getUnitVector ⟨0, 0⟩ ⟨0, 0⟩ = ⟨0, 0⟩ := by
  simp only [getUnitVector]
  norm_num

lemma angle_east_north : calculateAngleBetweenVectors ⟨1, 0⟩ ⟨0, 1⟩ = π / 2 := by
  have h : calculateAngleBetweenVectors ⟨1, 0⟩ ⟨0, 1⟩ = atan2 1 0 := by
    simp only [calculateAngleBetweenVectors]
    norm_num
  rw [h, atan2_pos_zero 1 (by norm_num)]

lemma angle_north_west : calculateAngleBetweenVectors ⟨0, 1⟩ ⟨-1, 0⟩ = π / 2 := by
  have h : calculateAngleBetweenVectors ⟨0, 1⟩ ⟨-1, 0⟩ = atan2 1 0 := by
    simp only [calculateAngleBetweenVectors]
    norm_num
  rw [h, atan2_pos_zero 1 (by norm_num)]

lemma angle_east_east : calculateAngleBetweenVectors ⟨1, 0⟩ ⟨1, 0⟩ = 0 := by
  have h : calculateAngleBetweenVectors ⟨1, 0⟩ ⟨1, 0⟩ = atan2 0 1 := by
    simp only [calculateAngleBetweenVectors]
    norm_num
  rw [h, atan2_zero_nonneg 1 (by norm_num)]

lemma angle_zero_east : calculateAngleBetweenVectors ⟨0, 0⟩ ⟨1, 0⟩ = 0 := by
  have h : calculateAngleBetweenVectors ⟨0, 0⟩ ⟨1, 0⟩ = atan2 0 0 := by
    simp only [calculateAngleBetweenVectors]
    norm_num
  have h0 : (⟨0, 0⟩ : ℂ) = 0 := by apply Complex.ext <;> simp
  rw [h, atan2, h0, Complex.arg_zero]

lemma pi_half_not_small : ¬ |π / 2| < 0.05 := by
  have h3 := Real.pi_gt_three
  rw [abs_of_pos (by linarith)]
  norm_num
  linarith

/-! ### Evaluation at the right-angle test input (0,0), (100,0), (100,100), radius 20 -/

/-- The three IPs of the right-angle test case. -/
def c1pts : List Point := [⟨0, 0⟩, ⟨100, 0⟩, ⟨100, 100⟩]

/-- The arc the engine produces at the interior IP of the right-angle test case. -/
def arcC1 : Arc :=
  ⟨⟨80, 20⟩, 20, 0, 3 * π / 2, π / 2, true, ⟨80, 0⟩, ⟨100, 20⟩, ⟨100, 0⟩, 20, 20⟩

lemma li_c1 : calculateLineIntersection ⟨80, 0⟩ ⟨0, 1⟩ ⟨100, 20⟩ ⟨1, 0⟩ = some ⟨80, 20⟩ := by
  simp only [calculateLineIntersection]
  norm_num

lemma center_c1 : calculateArcCenter ⟨80, 0⟩ ⟨100, 20⟩ ⟨1, 0⟩ ⟨0, 1⟩ 20 true = ⟨80, 20⟩ := by
  simp only [calculateArcCenter, getPerpendicularVector, if_pos]
  norm_num
  rw [li_c1]

lemma normalize_c1 : normalizeArcAngles 0 (-(π / 2)) true = (0, 3 * π / 2) := by
  have hpi := Real.pi_pos
  rw [normalizeArcAngles]
  rw [if_pos rfl, if_pos (by linarith)]
  refine Prod.ext rfl ?_
  ring

lemma arc_eval_c1 : calculateArcElement ⟨0, 0⟩ ⟨100, 0⟩ ⟨100, 100⟩ 20 = some arcC1 := by
  simp only [calculateArcElement, uv_east, uv_north, angle_east_north]
  rw [if_neg pi_half_not_small]
  rw [show (decide (π / 2 > (0 : ℝ))) = true from
    decide_eq_true (by positivity)]
  rw [show |π / 2| / 2 = π / 4 from by rw [abs_of_pos Real.pi_div_two_pos]; ring]
  rw [Real.tan_pi_div_four]
  norm_num
  rw [center_c1]
  norm_num
  rw [atan2_zero_nonneg 20 (by norm_num), atan2_neg_zero (-20) (by norm_num)]
  rw [normalize_c1]
  simp only [arcC1]

/-! ### Shape of the element sequence: tangents first, then arcs -/

lemma tangentsOf_append (A B : List Element) :
    tangentsOf (A ++ B) = tangentsOf A ++ tangentsOf B :=
  List.filterMap_append A B _

lemma arcsOf_append (A B : List Element) :
    arcsOf (A ++ B) = arcsOf A ++ arcsOf B :=
  List.filterMap_append A B _

lemma tangentsOf_map_tangent (f : ℕ → Tangent) (l : List ℕ) :
    tangentsOf (l.map fun i => Element.tangent (f i)) = l.map f := by
  induction l with
  | nil => rfl
  | cons a t ih =>
    simp only [List.map_cons, tangentsOf, List.filterMap_cons] at ih ⊢
    rw [ih]

lemma arcsOf_map_tangent (f : ℕ → Tangent) (l : List ℕ) :
    arcsOf (l.map fun i => Element.tangent (f i)) = [] := by
  induction l with
  | nil => rfl
  | cons a t ih =>
    simp only [List.map_cons, arcsOf, List.filterMap_cons] at ih ⊢
    exact ih

lemma tangentsOf_filterMap_arc (g : ℕ → Option Arc) (l : List ℕ) :
    tangentsOf (l.filterMap fun i => (g i).map Element.arc) = [] := by
  induction l with
  | nil => rfl
  | cons a t ih =>
    cases hga : g a with
    | none => simpa [List.filterMap_cons, hga] using ih
    | some b =>
      simp only [tangentsOf, List.filterMap_cons, hga, Option.map_some'] at ih ⊢
      exact ih

lemma arcsOf_filterMap_arc (g : ℕ → Option Arc) (l : List ℕ) :
    arcsOf (l.filterMap fun i => (g i).map Element.arc) = l.filterMap g := by
  induction l with
  | nil => rfl
  | cons a t ih =>
    cases hga : g a with
    | none => simpa [List.filterMap_cons, hga] using ih
    | some b =>
      simp only [arcsOf, List.filterMap_cons, hga, Option.map_some'] at ih ⊢
      rw [ih]

lemma tangentsOf_calc (pts c : List Point) (r : ℝ) (h : ¬ pts.length < 2) :
    tangentsOf (calculateAlignmentElements pts c r) =
      (List.range (pts.length - 1)).map (tangentAt pts r) := by
  simp only [calculateAlignmentElements]
  rw [if_neg h, tangentsOf_append, tangentsOf_map_tangent, tangentsOf_filterMap_arc,
    List.append_nil]

lemma arcsOf_calc (pts c : List Point) (r : ℝ) (h : ¬ pts.length < 2) :
    arcsOf (calculateAlignmentElements pts c r) =
      (List.range' 1 (pts.length - 2)).filterMap (ipArc pts r) := by
  simp only [calculateAlignmentElements]
  rw [if_neg h, arcsOf_append, arcsOf_map_tangent, arcsOf_filterMap_arc, List.nil_append]

/-! ### The full element sequence at the right-angle test input -/

lemma ipArc_c1_0 : ipArc c1pts 20 0 = none := rfl

lemma ipArc_c1_2 : ipArc c1pts 20 2 = none := rfl

lemma ipArc_c1_1 : ipArc c1pts 20 1 = some arcC1 := by
  have h : ipArc c1pts 20 1 = calculateArcElement ⟨0, 0⟩ ⟨100, 0⟩ ⟨100, 100⟩ 20 := rfl
  rw [h, arc_eval_c1]

/-- First tangent of the right-angle test case: from the first IP to the arc start. -/
def tanC1a : Tangent := ⟨⟨0, 0⟩, ⟨80, 0⟩, π / 2, 80, ⟨0, 0⟩, ⟨100, 0⟩⟩

/-- Second tangent of the right-angle test case: from the arc end to the last IP. -/
def tanC1b : Tangent := ⟨⟨100, 20⟩, ⟨100, 100⟩, π, 80, ⟨100, 0⟩, ⟨100, 100⟩⟩

lemma bearing_c1a : calculateBearing ⟨0, 0⟩ ⟨80, 0⟩ = π / 2 := by
  simp only [calculateBearing]
  norm_num
  rw [atan2_pos_zero 80 (by norm_num)]
  rw [if_neg (not_lt.2 Real.pi_div_two_pos.le)]

lemma bearing_c1b : calculateBearing ⟨100, 20⟩ ⟨100, 100⟩ = π := by
  simp only [calculateBearing]
  norm_num
  rw [atan2_zero_neg (-80) (by norm_num)]
  rw [if_neg (not_lt.2 Real.pi_pos.le)]

lemma dist_c1a : calculateDistance ⟨0, 0⟩ ⟨80, 0⟩ = 80 :=
  calculateDistance_eval _ _ 80 (by norm_num) (by norm_num)

lemma dist_c1b : calculateDistance ⟨100, 20⟩ ⟨100, 100⟩ = 80 :=
  calculateDistance_eval _ _ 80 (by norm_num) (by norm_num)

lemma tangentAt_c1_0 : tangentAt c1pts 20 0 = tanC1a := by
  have e0 : c1pts.getD 0 origin = ⟨0, 0⟩ := rfl
  have e1 : c1pts.getD 1 origin = ⟨100, 0⟩ := rfl
  have i01 : ipArc c1pts 20 (0 + 1) = some arcC1 := ipArc_c1_1
  simp only [tangentAt, ipArc_c1_0, i01, e0, e1, arcC1]
  rw [bearing_c1a, dist_c1a]
  rfl

lemma tangentAt_c1_1 : tangentAt c1pts 20 1 = tanC1b := by
  have e1 : c1pts.getD 1 origin = ⟨100, 0⟩ := rfl
  have e2 : c1pts.getD 2 origin = ⟨100, 100⟩ := rfl
  have i12 : ipArc c1pts 20 (1 + 1) = none := ipArc_c1_2
  simp only [tangentAt, ipArc_c1_1, i12, e1, e2, arcC1]
  rw [bearing_c1b, dist_c1b]
  rfl

lemma elements_c1 : calculateAlignmentElements c1pts [] 20 =
    [Element.tangent tanC1a, Element.tangent tanC1b, Element.arc arcC1] := by
  simp only [calculateAlignmentElements]
  rw [if_neg (by norm_num [c1pts])]
  have hr : List.range (c1pts.length - 1) = [0, 1] := rfl
  have hr2 : List.range' 1 (c1pts.length - 2) = [1] := rfl
  rw [hr, hr2]
  simp only [List.map_cons, List.map_nil, List.filterMap_cons, List.filterMap_nil]
  rw [tangentAt_c1_0, tangentAt_c1_1, ipArc_c1_1]
  rfl

/-! ### Claim theorems -/

/-- C1 (amended): the points (0,0), (100,0), (100,100) with radius 20 produce exactly one
arc, with isRightTurn = true, tangentLength = 20 * tan(pi/4) = 20, arc start point (80,0),
arc end point (100,20) -- the end point lies 20 units along the outgoing tangent from the
IP, not at (100,80) -- and radius exactly 20. -/
theorem alignment_c1_amended :
    arcsOf (calculateAlignmentElements c1pts [] 20) = [arcC1] ∧
    arcC1.isRightTurn = true ∧
    arcC1.tangentLength = 20 * Real.tan (π / 4) ∧
    arcC1.tangentLength = 20 ∧
    arcC1.startPoint = ⟨80, 0⟩ ∧
    arcC1.endPoint = ⟨100, 20⟩ ∧
    arcC1.radius = 20 := by
  refine ⟨?_, rfl, ?_, rfl, rfl, rfl, rfl⟩
  · rw [elements_c1]
    rfl
  · rw [Real.tan_pi_div_four]
    norm_num [arcC1]

/-- C1 refuted as stated: at the input (0,0), (100,0), (100,100) with radius 20, the arc
list's end points are not [(100,80)]; the single arc ends at (100,20). -/
theorem alignment_c1_cex :
    (arcsOf (calculateAlignmentElements c1pts [] 20)).map Arc.endPoint ≠
      [(⟨100, 80⟩ : Point)] := by
  have h2 : (arcsOf [Element.tangent tanC1a, Element.tangent tanC1b,
      Element.arc arcC1]).map Arc.endPoint = [arcC1.endPoint] := rfl
  rw [elements_c1, h2]
  simp [arcC1, Point.mk.injEq]

/-- C3: for any points list of length at least 2 the output has exactly n-1 tangents and
at most n-2 arcs; for fewer than 2 points the output is the empty sequence. -/
theorem alignment_c3 (pts c : List Point) (r : ℝ) :
    (2 ≤ pts.length →
      (tangentsOf (calculateAlignmentElements pts c r)).length = pts.length - 1 ∧
      (arcsOf (calculateAlignmentElements pts c r)).length ≤ pts.length - 2) ∧
    (pts.length < 2 → calculateAlignmentElements pts c r = []) := by
  constructor
  · intro h
    have hn : ¬ pts.length < 2 := by omega
    constructor
    · rw [tangentsOf_calc pts c r hn, List.length_map, List.length_range]
    · rw [arcsOf_calc pts c r hn]
      have h1 : ((List.range' 1 (pts.length - 2)).filterMap (ipArc pts r)).length ≤
          (List.range' 1 (pts.length - 2)).length := List.length_filterMap_le _ _
      simpa [List.length_range'] using h1
  · intro h
    simp only [calculateAlignmentElements]
    rw [if_pos h]

/-- C3 witness: at the three-point right-angle input the output has 2 tangents and at
most 1 arc, and a one-point input gives the empty sequence. -/
theorem alignment_c3_witness :
    (tangentsOf (calculateAlignmentElements c1pts [] 20)).length = 2 ∧
    (arcsOf (calculateAlignmentElements c1pts [] 20)).length ≤ 1 ∧
    calculateAlignmentElements [⟨0, 0⟩] [] 20 = [] := by
  have h := (alignment_c3 c1pts [] 20).1 (by norm_num [c1pts])
  have h2 := (alignment_c3 [⟨0, 0⟩] [] 20).2 (by norm_num)
  norm_num [c1pts] at h
  exact ⟨h.1, h.2, h2⟩

/-- C10: calculateAlignmentElements accepts its curvePoints argument but never reads it,
so the output is identical for any two values of that argument. -/
theorem alignment_c10 (pts c1 c2 : List Point) (r : ℝ) :
    calculateAlignmentElements pts c1 r = calculateAlignmentElements pts c2 r := rfl

/-! ### Sub-threshold deflections (claim C4) -/

/-- The collinear three-point input. -/
def colPts : List Point := [⟨0, 0⟩, ⟨100, 0⟩, ⟨200, 0⟩]

/-- Input with two coincident consecutive IPs. -/
def coincPts : List Point := [⟨0, 0⟩, ⟨0, 0⟩, ⟨100, 0⟩]

lemma small_deflection_ipArc_none (pts : List Point) (r : ℝ) (i : ℕ)
    (h : |deflectionAt pts i| < 0.05) : ipArc pts r i = none := by
  simp only [ipArc]
  split_ifs with hg
  · have h2 : |calculateAngleBetweenVectors
        (getUnitVector (pts.getD (i - 1) origin) (pts.getD i origin))
        (getUnitVector (pts.getD i origin) (pts.getD (i + 1) origin))| < 0.05 := h
    simp only [calculateArcElement]
    rw [if_pos h2]
  · rfl

lemma deflection_col : deflectionAt colPts 1 = 0 := by
  have e0 : colPts.getD (1 - 1) origin = ⟨0, 0⟩ := rfl
  have e1 : colPts.getD 1 origin = ⟨100, 0⟩ := rfl
  have e2 : colPts.getD (1 + 1) origin = ⟨200, 0⟩ := rfl
  rw [deflectionAt, e0, e1, e2, uv_east, uv_east2, angle_east_east]

lemma deflection_coinc : deflectionAt coincPts 1 = 0 := by
  have e0 : coincPts.getD (1 - 1) origin = ⟨0, 0⟩ := rfl
  have e1 : coincPts.getD 1 origin = ⟨0, 0⟩ := rfl
  have e2 : coincPts.getD (1 + 1) origin = ⟨100, 0⟩ := rfl
  rw [deflectionAt, e0, e1, e2, uv_degenerate, uv_east, angle_zero_east]

lemma ipArc_col_none (r : ℝ) : ipArc colPts r 1 = none :=
  small_deflection_ipArc_none colPts r 1 (by rw [deflection_col]; norm_num)

lemma tlen_col_0 (r : ℝ) : (tangentAt colPts r 0).length = 100 := by
  have hip0 : ipArc colPts r 0 = none := rfl
  have hip1 : ipArc colPts r (0 + 1) = none := ipArc_col_none r
  have e0 : colPts.getD 0 origin = ⟨0, 0⟩ := rfl
  have e1 : colPts.getD (0 + 1) origin = ⟨100, 0⟩ := rfl
  simp only [tangentAt, hip0, hip1, e0, e1]
  exact calculateDistance_eval _ _ 100 (by norm_num) (by norm_num)

lemma tlen_col_1 (r : ℝ) : (tangentAt colPts r 1).length = 100 := by
  have hip1 : ipArc colPts r 1 = none := ipArc_col_none r
  have hip2 : ipArc colPts r (1 + 1) = none := rfl
  have e1 : colPts.getD 1 origin = ⟨100, 0⟩ := rfl
  have e2 : colPts.getD (1 + 1) origin = ⟨200, 0⟩ := rfl
  simp only [tangentAt, hip1, hip2, e1, e2]
  exact calculateDistance_eval _ _ 100 (by norm_num) (by norm_num)

/-- C4: an interior IP whose absolute deflection is below 0.05 rad gets no arc and the
adjacent tangents pass through the raw IP; the collinear points (0,0), (100,0), (200,0)
give zero arcs and two tangents whose lengths sum to 200; coincident consecutive IPs give
a zero unit vector, hence zero deflection and no arc, with no failure. -/
theorem alignment_c4 :
    (∀ (pts : List Point) (r : ℝ) (i : ℕ), 1 ≤ i → |deflectionAt pts i| < 0.05 →
      ipArc pts r i = none ∧
      (tangentAt pts r i).startPoint = pts.getD i origin ∧
      (tangentAt pts r (i - 1)).endPoint = pts.getD i origin) ∧
    (∀ r : ℝ, arcsOf (calculateAlignmentElements colPts [] r) = [] ∧
      ((tangentsOf (calculateAlignmentElements colPts [] r)).map Tangent.length).sum
        = 200) ∧
    (deflectionAt coincPts 1 = 0 ∧ ∀ r : ℝ, ipArc coincPts r 1 = none) := by
  refine ⟨?_, ?_, deflection_coinc, ?_⟩
  · intro pts r i h1 hsmall
    have hnone := small_deflection_ipArc_none pts r i hsmall
    have hii : i - 1 + 1 = i := Nat.succ_pred_eq_of_pos h1
    refine ⟨hnone, ?_, ?_⟩
    · simp only [tangentAt, hnone]
    · simp only [tangentAt, hii, hnone]
  · intro r
    have hn : ¬ colPts.length < 2 := by norm_num [colPts]
    constructor
    · rw [arcsOf_calc colPts [] r hn]
      have hr2 : List.range' 1 (colPts.length - 2) = [1] := rfl
      rw [hr2]
      simp [List.filterMap_cons, ipArc_col_none r]
    · rw [tangentsOf_calc colPts [] r hn]
      have hr : List.range (colPts.length - 1) = [0, 1] := rfl
      rw [hr]
      simp only [List.map_cons, List.map_nil, List.sum_cons, List.sum_nil]
      rw [tlen_col_0 r, tlen_col_1 r]
      norm_num
  · intro r
    exact small_deflection_ipArc_none coincPts r 1 (by rw [deflection_coinc]; norm_num)

/-- C4 witness: at the collinear input with radius 7 and interior index 1, the theorem
yields no arc and tangents through the raw IP (100,0). -/
theorem alignment_c4_witness :
    ipArc colPts 7 1 = none ∧
    (tangentAt colPts 7 1).startPoint = ⟨100, 0⟩ ∧
    (tangentAt colPts 7 0).endPoint = ⟨100, 0⟩ := by
  have h := alignment_c4.1 colPts 7 1 (by norm_num) (by rw [deflection_col]; norm_num)
  have e1 : colPts.getD 1 origin = ⟨100, 0⟩ := rfl
  refine ⟨h.1, ?_, ?_⟩
  · rw [h.2.1, e1]
  · rw [(h.2.2 : (tangentAt colPts 7 0).endPoint = colPts.getD 1 origin), e1]

/-! ### Per-index radii (claim C2) -/

/-- Four-point test input with two interior IPs, both with 90 degree deflections. -/
def c2pts : List Point := [⟨0, 0⟩, ⟨100, 0⟩, ⟨100, 100⟩, ⟨0, 100⟩]

/-- RadiusSpec with per-index overrides 50 at IP 1 and 30 at IP 2, default 20. -/
def c2radii : RadiusSpec := ⟨20, [(1, 50), (2, 30)]⟩

lemma calculateArcElement_some (p q n : Point) (r : ℝ)
    (h : ¬ |calculateAngleBetweenVectors (getUnitVector p q) (getUnitVector q n)| < 0.05) :
    ∃ a, calculateArcElement p q n r = some a ∧ a.radius = r := by
  simp only [calculateArcElement]
  rw [if_neg h]
  exact ⟨_, rfl, rfl⟩

lemma ipArc_c2_1 (r : ℝ) : ∃ a, ipArc c2pts r 1 = some a ∧ a.radius = r := by
  have h : ipArc c2pts r 1 = calculateArcElement ⟨0, 0⟩ ⟨100, 0⟩ ⟨100, 100⟩ r := rfl
  rw [h]
  apply calculateArcElement_some
  rw [uv_east, uv_north, angle_east_north]
  exact pi_half_not_small

lemma ipArc_c2_2 (r : ℝ) : ∃ a, ipArc c2pts r 2 = some a ∧ a.radius = r := by
  have h : ipArc c2pts r 2 = calculateArcElement ⟨100, 0⟩ ⟨100, 100⟩ ⟨0, 100⟩ r := rfl
  rw [h]
  apply calculateArcElement_some
  rw [uv_north, uv_west, angle_north_west]
  exact pi_half_not_small

lemma ipArcSpec_c2_1 : ∃ a, ipArcSpec c2pts c2radii 1 = some a ∧ a.radius = 50 := by
  have h : ipArcSpec c2pts c2radii 1 = calculateArcElement ⟨0, 0⟩ ⟨100, 0⟩ ⟨100, 100⟩ 50 := rfl
  rw [h]
  apply calculateArcElement_some
  rw [uv_east, uv_north, angle_east_north]
  exact pi_half_not_small

lemma ipArcSpec_c2_2 : ∃ a, ipArcSpec c2pts c2radii 2 = some a ∧ a.radius = 30 := by
  have h : ipArcSpec c2pts c2radii 2 = calculateArcElement ⟨100, 0⟩ ⟨100, 100⟩ ⟨0, 100⟩ 30 := rfl
  rw [h]
  apply calculateArcElement_some
  rw [uv_north, uv_west, angle_north_west]
  exact pi_half_not_small

lemma arcsOf_calcSpec (pts : List Point) (radii : RadiusSpec) (h : ¬ pts.length < 2) :
    arcsOf (calculateAlignmentElementsSpec pts radii) =
      (List.range' 1 (pts.length - 2)).filterMap (ipArcSpec pts radii) := by
  simp only [calculateAlignmentElementsSpec]
  rw [if_neg h, arcsOf_append, arcsOf_map_tangent, arcsOf_filterMap_arc, List.nil_append]

/-- C2 (code bug): the source engine applies its single scalar radius argument at every
interior IP -- there is no per-index lookup -- so at the four-point input both arcs get
radius r for every scalar r the caller passes, while the spec's per-index lookup (with
overrides 50 at IP 1 and 30 at IP 2) yields arc radii 50 and 30; no scalar argument
reproduces the spec output. -/
theorem alignment_c2 (r : ℝ) :
    (arcsOf (calculateAlignmentElements c2pts [] r)).map Arc.radius = [r, r] ∧
    (arcsOf (calculateAlignmentElementsSpec c2pts c2radii)).map Arc.radius = [50, 30] ∧
    (arcsOf (calculateAlignmentElements c2pts [] r)).map Arc.radius ≠
      (arcsOf (calculateAlignmentElementsSpec c2pts c2radii)).map Arc.radius := by
  obtain ⟨a1, ha1, hr1⟩ := ipArc_c2_1 r
  obtain ⟨a2, ha2, hr2⟩ := ipArc_c2_2 r
  obtain ⟨b1, hb1, hs1⟩ := ipArcSpec_c2_1
  obtain ⟨b2, hb2, hs2⟩ := ipArcSpec_c2_2
  have h1 : (arcsOf (calculateAlignmentElements c2pts [] r)).map Arc.radius = [r, r] := by
    rw [arcsOf_calc c2pts [] r (by norm_num [c2pts])]
    have hrr : List.range' 1 (c2pts.length - 2) = [1, 2] := rfl
    rw [hrr]
    simp [List.filterMap_cons, ha1, ha2, hr1, hr2]
  have h2 : (arcsOf (calculateAlignmentElementsSpec c2pts c2radii)).map Arc.radius
      = [50, 30] := by
    rw [arcsOf_calcSpec c2pts c2radii (by norm_num [c2pts])]
    have hrr : List.range' 1 (c2pts.length - 2) = [1, 2] := rfl
    rw [hrr]
    simp [List.filterMap_cons, hb1, hb2, hs1, hs2]
  refine ⟨h1, h2, ?_⟩
  rw [h1, h2]
  intro h
  injection h with ha hb
  injection hb with hb _
  rw [ha] at hb
  norm_num at hb

/-! ### Arcs in the output come from ipArc (claims C5 and C9) -/

lemma arc_mem_elements (pts c : List Point) (r : ℝ) (a : Arc)
    (h : Element.arc a ∈ calculateAlignmentElements pts c r) :
    ∃ i, ipArc pts r i = some a := by
  by_cases h2 : pts.length < 2
  · simp only [calculateAlignmentElements] at h
    rw [if_pos h2] at h
    exact absurd h (List.not_mem_nil _)
  · simp only [calculateAlignmentElements] at h
    rw [if_neg h2] at h
    rcases List.mem_append.1 h with hl | hr
    · rcases List.mem_map.1 hl with ⟨i, _, hi⟩
      exact absurd hi (by simp)
    · rcases List.mem_filterMap.1 hr with ⟨i, _, hi⟩
      rcases Option.map_eq_some'.1 hi with ⟨b, hb, hba⟩
      refine ⟨i, ?_⟩
      rw [hb]
      injection hba with hba
      rw [hba]

lemma ipArc_some_bounds (pts : List Point) (r : ℝ) (i : ℕ) (a : Arc)
    (h : ipArc pts r i = some a) :
    1 ≤ i ∧ i + 1 < pts.length ∧
    calculateArcElement (pts.getD (i - 1) origin) (pts.getD i origin)
      (pts.getD (i + 1) origin) r = some a := by
  simp only [ipArc] at h
  split_ifs at h with hg
  exact ⟨hg.1, hg.2, h⟩

lemma calculateArcElement_fields (p q n : Point) (r : ℝ) (a : Arc)
    (h : calculateArcElement p q n r = some a) :
    a.deflectionAngle = calculateAngleBetweenVectors (getUnitVector p q) (getUnitVector q n) ∧
    a.isRightTurn = decide (a.deflectionAngle > 0) ∧
    ∃ s e, -π < s ∧ s ≤ π ∧ -π < e ∧ e ≤ π ∧
      a.startAngle = (normalizeArcAngles s e a.isRightTurn).1 ∧
      a.endAngle = (normalizeArcAngles s e a.isRightTurn).2 := by
  simp only [calculateArcElement] at h
  split_ifs at h with hd
  injection h with h
  subst h
  refine ⟨rfl, rfl, _, _, ?_, ?_, ?_, ?_, rfl, rfl⟩
  · exact neg_pi_lt_atan2 _ _
  · exact atan2_le_pi _ _
  · exact neg_pi_lt_atan2 _ _
  · exact atan2_le_pi _ _

/-- C5: for every arc element in the engine output, isRightTurn holds exactly when the
signed deflection angle stored for that arc (computed by calculateAngleBetweenVectors at
its IP) is strictly positive. -/
theorem alignment_c5 (pts c : List Point) (r : ℝ) (a : Arc)
    (h : Element.arc a ∈ calculateAlignmentElements pts c r) :
    (a.isRightTurn = true ↔ 0 < a.deflectionAngle) ∧
    ∃ i, 1 ≤ i ∧ i + 1 < pts.length ∧ a.deflectionAngle = deflectionAt pts i := by
  obtain ⟨i, hi⟩ := arc_mem_elements pts c r a h
  obtain ⟨h1, h2, h3⟩ := ipArc_some_bounds pts r i a hi
  obtain ⟨hd, hb, _⟩ := calculateArcElement_fields _ _ _ _ _ h3
  constructor
  · rw [hb]
    simp
  · exact ⟨i, h1, h2, hd⟩

/-- C5 witness: the arc of the right-angle test case has isRightTurn = true and a
positive deflection angle pi/2 at interior index 1. -/
theorem alignment_c5_witness :
    (arcC1.isRightTurn = true ↔ 0 < arcC1.deflectionAngle) ∧
    ∃ i, 1 ≤ i ∧ i + 1 < c1pts.length ∧ arcC1.deflectionAngle = deflectionAt c1pts i :=
  alignment_c5 c1pts [] 20 arcC1 (by rw [elements_c1]; simp)

lemma normalizeArcAngles_mono (s e : ℝ) (hs1 : -π < s) (hs2 : s ≤ π)
    (he1 : -π < e) (he2 : e ≤ π) :
    (normalizeArcAngles s e true).1 ≤ (normalizeArcAngles s e true).2 ∧
    (normalizeArcAngles s e false).2 ≤ (normalizeArcAngles s e false).1 := by
  have hpi := Real.pi_pos
  constructor
  · have ht : normalizeArcAngles s e true =
        if e < s then (s, e + 2 * π) else (s, e) := by simp [normalizeArcAngles]
    rw [ht]
    split_ifs with h <;> simp <;> linarith
  · have hf : normalizeArcAngles s e false =
        if e > s then (s, e - 2 * π) else (s, e) := by simp [normalizeArcAngles]
    rw [hf]
    split_ifs with h <;> simp <;> linarith

/-- C9: every arc in the engine output has normalized sweep angles that are monotone in
the turn direction: endAngle at least startAngle on a right turn, and at most startAngle
on a left turn. -/
theorem alignment_c9 (pts c : List Point) (r : ℝ) (a : Arc)
    (h : Element.arc a ∈ calculateAlignmentElements pts c r) :
    (a.isRightTurn = true → a.startAngle ≤ a.endAngle) ∧
    (a.isRightTurn = false → a.endAngle ≤ a.startAngle) := by
  obtain ⟨i, hi⟩ := arc_mem_elements pts c r a h
  obtain ⟨_, _, h3⟩ := ipArc_some_bounds pts r i a hi
  obtain ⟨_, _, s, e, hs1, hs2, he1, he2, hsa, hea⟩ :=
    calculateArcElement_fields _ _ _ _ _ h3
  have hm := normalizeArcAngles_mono s e hs1 hs2 he1 he2
  constructor
  · intro hb
    rw [hsa, hea, hb]
    exact hm.1
  · intro hb
    rw [hsa, hea, hb]
    exact hm.2

/-- C9 witness: the right-turn arc of the right-angle test case sweeps from startAngle 0
up to endAngle 3*pi/2. -/
theorem alignment_c9_witness : arcC1.isRightTurn = true ∧ arcC1.startAngle ≤ arcC1.endAngle := by
  have h := alignment_c9 c1pts [] 20 arcC1 (by rw [elements_c1]; simp)
  exact ⟨rfl, h.1 rfl⟩

/-! ### Selection query (claim C6) -/

lemma find_hits_first {α : Type} (p : α → Bool) (l1 l2 : List α) (e : α)
    (h1 : ∀ x ∈ l1, p x = false) (h2 : p e = true) :
    (l1 ++ e :: l2).find? p = some e := by
  induction l1 with
  | nil => simpa using List.find?_cons_of_pos l2 h2
  | cons a t ih =>
    have ha : p a = false := h1 a (List.mem_cons_self a t)
    rw [List.cons_append, List.find?_cons_of_neg _ (by simp [ha])]
    exact ih fun x hx => h1 x (List.mem_cons_of_mem a hx)

/-- C6: findElementAt returns the first element of the sequence, in stored order, whose
proximity predicate holds, or none when no predicate holds; since the engine output lists
all tangents before all arcs, whenever any tangent satisfies the predicate the result is a
tangent, regardless of any arc that also satisfies it. -/
theorem alignment_c6 :
    (∀ (m : Point) (tol : ℝ) (es : List Element) (e : Element),
        findElementAt m es tol = some e → isElementAtPosition m e tol = true) ∧
    (∀ (m : Point) (tol : ℝ) (es : List Element),
        findElementAt m es tol = none ↔ ∀ e ∈ es, isElementAtPosition m e tol = false) ∧
    (∀ (m : Point) (tol : ℝ) (l1 l2 : List Element) (e : Element),
        (∀ x ∈ l1, isElementAtPosition m x tol = false) →
        isElementAtPosition m e tol = true →
        findElementAt m (l1 ++ e :: l2) tol = some e) ∧
    (∀ (pts c : List Point) (r : ℝ) (m : Point) (tol : ℝ) (t : Tangent),
        Element.tangent t ∈ calculateAlignmentElements pts c r →
        isElementAtPosition m (Element.tangent t) tol = true →
        ∃ t2, findElementAt m (calculateAlignmentElements pts c r) tol =
          some (Element.tangent t2)) := by
  refine ⟨?_, ?_, ?_, ?_⟩
  · intro m tol es e h
    simp only [findElementAt] at h
    have h2 := List.find?_some h
    simpa using h2
  · intro m tol es
    simp only [findElementAt]
    rw [List.find?_eq_none]
    constructor
    · intro h e he
      simpa using h e he
    · intro h e he
      simp [h e he]
  · intro m tol l1 l2 e h1 h2
    exact find_hits_first _ l1 l2 e h1 h2
  · intro pts c r m tol t ht hp
    by_cases h2 : pts.length < 2
    · rw [show calculateAlignmentElements pts c r = [] from by
        simp only [calculateAlignmentElements]; rw [if_pos h2]] at ht
      exact absurd ht (List.not_mem_nil _)
    · simp only [calculateAlignmentElements] at ht ⊢
      rw [if_neg h2] at ht ⊢
      set T := (List.range (pts.length - 1)).map
        (fun i => Element.tangent (tangentAt pts r i)) with hT
      set A := (List.range' 1 (pts.length - 2)).filterMap
        (fun i => (ipArc pts r i).map Element.arc) with hA
      have htT : Element.tangent t ∈ T := by
        rcases List.mem_append.1 ht with h | h
        · exact h
        · exfalso
          rcases List.mem_filterMap.1 h with ⟨i, _, hi⟩
          rcases Option.map_eq_some'.1 hi with ⟨b, _, hba⟩
          exact absurd hba (by simp)
      have hne : T.find? (fun e2 => isElementAtPosition m e2 tol) ≠ none := by
        intro h0
        rw [List.find?_eq_none] at h0
        exact absurd hp (by simpa using h0 _ htT)
      rcases Option.eq_none_or_eq_some
          (T.find? fun e2 => isElementAtPosition m e2 tol) with h0 | ⟨y, hy⟩
      · exact absurd h0 hne
      · have hyT : y ∈ T := List.mem_of_find?_eq_some hy
        rcases List.mem_map.1 hyT with ⟨i, _, hiy⟩
        refine ⟨tangentAt pts r i, ?_⟩
        simp only [findElementAt]
        rw [List.find?_append, hy, Option.or_some, hiy]

lemma dist_c6_a : calculateDistance ⟨80, 0⟩ ⟨0, 0⟩ = 80 :=
  calculateDistance_eval _ _ 80 (by norm_num) (by norm_num)

lemma dist_c6_b : calculateDistance ⟨80, 0⟩ ⟨80, 0⟩ = 0 :=
  calculateDistance_eval _ _ 0 (by norm_num) (by norm_num)

lemma dist_c6_c : calculateDistance ⟨80, 0⟩ ⟨80, 20⟩ = 20 :=
  calculateDistance_eval _ _ 20 (by norm_num) (by norm_num)

/-- C6 witness: at query point (80,0) with tolerance 1 on the right-angle alignment, the
first tangent and the arc both satisfy their proximity predicates, and findElementAt
returns the tangent, which comes earlier in the stored order. -/
theorem alignment_c6_witness :
    isElementAtPosition ⟨80, 0⟩ (Element.tangent tanC1a) 1 = true ∧
    isElementAtPosition ⟨80, 0⟩ (Element.arc arcC1) 1 = true ∧
    findElementAt ⟨80, 0⟩ (calculateAlignmentElements c1pts [] 20) 1 =
      some (Element.tangent tanC1a) := by
  have hpt : isElementAtPosition ⟨80, 0⟩ (Element.tangent tanC1a) 1 = true := by
    simp only [isElementAtPosition, tanC1a, isPointOnLine, decide_eq_true_eq]
    rw [dist_c6_a, dist_c6_b, dist_c1a]
    norm_num
  have hpa : isElementAtPosition ⟨80, 0⟩ (Element.arc arcC1) 1 = true := by
    simp only [isElementAtPosition, arcC1, isPointOnArc, decide_eq_true_eq]
    rw [dist_c6_c]
    norm_num
  refine ⟨hpt, hpa, ?_⟩
  rw [elements_c1]
  exact alignment_c6.2.2.1 ⟨80, 0⟩ 1 [] [Element.tangent tanC1b, Element.arc arcC1]
    (Element.tangent tanC1a) (fun x hx => absurd hx (List.not_mem_nil _)) hpt

/-! ### Offset arcs (claim C7) -/

/-- A left-turn arc of radius 10: offsetting it to the inside by 15 must drop it. -/
def arcDrop : Arc := ⟨⟨0, 0⟩, 10, 0, 0, 0, false, ⟨0, 0⟩, ⟨0, 0⟩, ⟨0, 0⟩, 0, 10⟩

lemma calculateOffsetArc_radius (a : Arc) (d : ℝ) (oa : OffsetArc)
    (h : calculateOffsetArc a d = some oa) :
    oa.radius = (if a.isRightTurn then a.radius + d else a.radius - d) ∧ 0 < oa.radius := by
  by_cases hb : a.isRightTurn
  · rw [if_pos hb]
    simp only [calculateOffsetArc, if_pos hb] at h
    by_cases hr : a.radius + d ≤ 0
    · rw [if_pos hr] at h
      exact absurd h (by simp)
    · rw [if_neg hr] at h
      injection h with h
      subst h
      exact ⟨rfl, not_le.1 hr⟩
  · rw [if_neg hb]
    simp only [calculateOffsetArc, if_neg hb] at h
    by_cases hr : a.radius - d ≤ 0
    · rw [if_pos hr] at h
      exact absurd h (by simp)
    · rw [if_neg hr] at h
      injection h with h
      subst h
      exact ⟨rfl, not_le.1 hr⟩

/-- A right-turn arc of radius 10 used to witness the surviving-offset case. -/
def arcEx : Arc := ⟨⟨0, 0⟩, 10, 0, 0, 0, true, ⟨0, 0⟩, ⟨0, 0⟩, ⟨0, 0⟩, 0, 10⟩

/-- The offset of arcEx by 5: radius 15, endpoints pushed along the radial perpendicular. -/
def arcExOff : OffsetArc := ⟨⟨0, 0⟩, 15, 0, 0, 0, true, ⟨0, 5⟩, ⟨0, 5⟩, ⟨0, 0⟩, 0, 5, arcEx⟩

/-- C7: the offset arc radius is radius + d on a right turn and radius - d otherwise; the
arc is dropped exactly when that value is not positive, so every arc in the offset output
has strictly positive radius; in particular a left-turn arc of radius 10 offset by 15 on
its inside is dropped. -/
theorem alignment_c7 :
    (∀ (a : Arc) (d : ℝ),
      ((if a.isRightTurn then a.radius + d else a.radius - d) ≤ 0 →
        calculateOffsetArc a d = none) ∧
      (0 < (if a.isRightTurn then a.radius + d else a.radius - d) →
        ∃ a2, calculateOffsetArc a d = some a2 ∧
          a2.radius = (if a.isRightTurn then a.radius + d else a.radius - d))) ∧
    (∀ (es : List Element) (d : ℝ) (a2 : OffsetArc),
      OffsetElement.arc a2 ∈ calculateOffsetAlignment es d → 0 < a2.radius) ∧
    calculateOffsetArc arcDrop 15 = none := by
  refine ⟨?_, ?_, ?_⟩
  · intro a d
    constructor
    · intro h
      simp only [calculateOffsetArc]
      rw [if_pos h]
    · intro h
      simp only [calculateOffsetArc]
      rw [if_neg (not_le.2 h)]
      exact ⟨_, rfl, rfl⟩
  · intro es d a2 h
    rcases List.mem_filterMap.1 h with ⟨e, _, he⟩
    cases e with
    | tangent t => exact absurd he (by simp)
    | arc a =>
      rcases Option.map_eq_some'.1 he with ⟨oa, hoa, hoe⟩
      injection hoe with hoe
      subst hoe
      exact (calculateOffsetArc_radius a d _ hoa).2
  · simp only [calculateOffsetArc, arcDrop]
    norm_num

/-- C7 witness: offsetting the right-turn radius-10 arc by 5 keeps it with radius 15, it
appears in the offset output, and the theorem gives its radius strictly positive. -/
theorem alignment_c7_witness :
    (∃ a2, calculateOffsetArc arcEx 5 = some a2 ∧
      a2.radius = (if arcEx.isRightTurn then arcEx.radius + 5 else arcEx.radius - 5)) ∧
    OffsetElement.arc arcExOff ∈ calculateOffsetAlignment [Element.arc arcEx] 5 ∧
    0 < arcExOff.radius := by
  have hoff : calculateOffsetArc arcEx 5 = some arcExOff := by
    simp only [calculateOffsetArc, arcEx]
    norm_num
    simp [arcExOff, arcEx, Real.sin_zero, Real.cos_zero, Point.mk.injEq]
  have hmem : OffsetElement.arc arcExOff ∈ calculateOffsetAlignment [Element.arc arcEx] 5 := by
    simp only [calculateOffsetAlignment, List.filterMap_cons, hoff, Option.map_some']
    exact List.mem_cons_self _ _
  exact ⟨(alignment_c7.1 arcEx 5).2 (by norm_num [arcEx]),
    hmem, alignment_c7.2.1 [Element.arc arcEx] 5 arcExOff hmem⟩

/-! ### Offset tangents (claim C8) -/

/-- C8: an offset tangent has both endpoints translated by exactly d times the
perpendicular of the tangent's unit direction; offsetting by d and by -d therefore gives
endpoint pairs that are mirror images across the original line, their coordinate sums
being twice the original endpoints. -/
theorem alignment_c8 (t : Tangent) (d : ℝ) :
    ((calculateOffsetTangent t d).startPoint.x = t.startPoint.x +
        d * (getPerpendicularVector (getUnitVector t.startPoint t.endPoint)).x ∧
      (calculateOffsetTangent t d).startPoint.y = t.startPoint.y +
        d * (getPerpendicularVector (getUnitVector t.startPoint t.endPoint)).y ∧
      (calculateOffsetTangent t d).endPoint.x = t.endPoint.x +
        d * (getPerpendicularVector (getUnitVector t.startPoint t.endPoint)).x ∧
      (calculateOffsetTangent t d).endPoint.y = t.endPoint.y +
        d * (getPerpendicularVector (getUnitVector t.startPoint t.endPoint)).y) ∧
    ((calculateOffsetTangent t d).startPoint.x +
        (calculateOffsetTangent t (-d)).startPoint.x = 2 * t.startPoint.x ∧
      (calculateOffsetTangent t d).startPoint.y +
        (calculateOffsetTangent t (-d)).startPoint.y = 2 * t.startPoint.y ∧
      (calculateOffsetTangent t d).endPoint.x +
        (calculateOffsetTangent t (-d)).endPoint.x = 2 * t.endPoint.x ∧
      (calculateOffsetTangent t d).endPoint.y +
        (calculateOffsetTangent t (-d)).endPoint.y = 2 * t.endPoint.y) := by
  refine ⟨⟨rfl, rfl, rfl, rfl⟩, ?_, ?_, ?_, ?_⟩ <;>
    simp only [calculateOffsetTangent] <;> ring

end
